import Mathlib

/-!
Shallow embedding of the diff-parsing and context-collection core of the
Rust-Copartner repository (files `src/python/src/diff_parser.py` and
`src/python/src/workflow.py`).

Lines and strings are modelled as `List Char`; Python `None`/values become
`Option`; raising `ValueError` becomes `Except String`.
-/

namespace RustCopartner

/-- `ChangeType`: the four kinds of `DiffChange` (diff_parser.py, class ChangeType). -/
inductive ChangeType where
  | addition
  | deletion
  | modification
  | context
deriving DecidableEq, Repr

/-- `DiffChange`: a single line change in a diff (diff_parser.py, @dataclass DiffChange). -/
structure DiffChange where
  line_number : Nat
  change_type : ChangeType
  old_line : Option (List Char) := none
  new_line : Option (List Char) := none
deriving DecidableEq, Repr

/-- `FileChange`: all changes to a single file (diff_parser.py, @dataclass FileChange). -/
structure FileChange where
  filename : List Char
  old_filename : List Char
  new_filename : List Char
  changes : List DiffChange
deriving DecidableEq, Repr

/-- `DiffResult`: result of parsing a diff (diff_parser.py, @dataclass DiffResult). -/
structure DiffResult where
  file_changes : List FileChange
deriving DecidableEq, Repr

/-! ### Python string helpers used by `parse` -/

/-- Python whitespace characters, as recognised by `str.strip()`. -/
def isPySpace (c : Char) : Bool :=
  c = ' ' || c = '\t' || c = '\n' || c = '\r' || c = '\x0b' || c = '\x0c'

/-- `str.lstrip()` on a character list. -/
def lstrip (s : List Char) : List Char := s.dropWhile isPySpace

/-- `str.rstrip()` on a character list. -/
def rstrip (s : List Char) : List Char := (s.reverse.dropWhile isPySpace).reverse

/-- `str.strip()` on a character list. -/
def strip (s : List Char) : List Char := rstrip (lstrip s)

/-- Helper: `dropWhile` never lengthens a list (used for termination). -/
theorem dropWhile_length_le (p : Char → Bool) (l : List Char) :
    (l.dropWhile p).length ≤ l.length := by
  induction l with
  | nil => simp [List.dropWhile]
  | cons c cs ih =>
    by_cases h : p c
    · simp only [List.dropWhile_cons, h, if_true]
      exact Nat.le_succ_of_le ih
    · simp [List.dropWhile_cons, h]

/-- `str.split(sep)` for a single-character separator. -/
def splitOnChar (sep : Char) (s : List Char) : List (List Char) :=
  match s with
  | [] => [[]]
  | c :: rest =>
    let tail := splitOnChar sep rest
    if c = sep then [] :: tail
    else
      match tail with
      | [] => [[c]]
      | l :: ls => (c :: l) :: ls

/-- `str.split('\n')` on a character list. -/
def splitLines (s : List Char) : List (List Char) := splitOnChar '\n' s

/-- `list.startswith(prefix)`. -/
def startsWith (pre s : List Char) : Bool :=
  match pre, s with
  | [], _ => true
  | _ :: _, [] => false
  | p :: ps, c :: cs => p = c && startsWith ps cs

/-! ### The three regular expressions of `DiffParser.__init__`

`file_header_pattern = ^--- a/(.+)$` used with `.match` on a whole line:
the line is `--- a/` followed by a non-empty remainder (the captured name).
`new_file_pattern = ^\+\+\+ b/(.+)$` likewise.
`hunk_header_pattern = ^@@ -(\d+),?\d* \+(\d+),?\d* @@` used with `.match`,
an (unanchored-at-the-right) prefix match; the two captured groups are the
leading digit runs.  Greedy matching of `(\d+),?\d*` against a line is
equivalent to: take the maximal digit run (non-empty), then if the next
character is a comma consume it together with the following maximal digit
run. -/

/-- `file_header_pattern.match(line)`: returns the captured file name. -/
def matchFileHeader (line : List Char) : Option (List Char) :=
  if startsWith "--- a/".data line then
    let rest := line.drop 6
    if rest = [] then none else some rest
  else none

/-- `new_file_pattern.match(line)`: returns the captured file name. -/
def matchNewFile (line : List Char) : Option (List Char) :=
  if startsWith "+++ b/".data line then
    let rest := line.drop 6
    if rest = [] then none else some rest
  else none

/-- Parse a maximal digit run at the front of a list; the run and the rest. -/
def takeDigits (s : List Char) : List Char × List Char :=
  match s with
  | [] => ([], [])
  | c :: cs =>
    if c.isDigit then
      let (ds, rest) := takeDigits cs
      (c :: ds, rest)
    else ([], s)

/-- Digit run to a natural number (the run is ASCII digits). -/
def digitsToNat (ds : List Char) : Nat :=
  ds.foldl (fun n c => n * 10 + (c.toNat - '0'.toNat)) 0

/-- Matches `(\d+),?\d*` greedily: needs a non-empty digit run, optionally a
comma and a further digit run; returns the first run's value and the rest. -/
def matchNumPart (s : List Char) : Option (Nat × List Char) :=
  let (ds, rest) := takeDigits s
  if ds = [] then none
  else
    match rest with
    | ',' :: rest' => some (digitsToNat ds, (takeDigits rest').2)
    | _ => some (digitsToNat ds, rest)

/-- `hunk_header_pattern.match(line)`: yields `(old_start, new_start)`. -/
def matchHunkHeader (line : List Char) : Option (Nat × Nat) :=
  if startsWith "@@ -".data line then
    match matchNumPart (line.drop 4) with
    | none => none
    | some (oldStart, rest) =>
      match rest with
      | ' ' :: '+' :: rest' =>
        match matchNumPart rest' with
        | none => none
        | some (newStart, rest'') =>
          if startsWith " @@".data rest'' then some (oldStart, newStart) else none
      | _ => none
  else none

/-! ### The scan loop of `DiffParser.parse` -/

/-- Mutable state of the `while` loop in `DiffParser.parse`. -/
structure ParseState where
  file_changes : List FileChange
  current_file : Option (List Char)
  current_changes : List DiffChange
  old_line_num : Nat
  new_line_num : Nat
deriving Repr

/-- Flushing the in-progress file into `file_changes`
(`FileChange(filename=current_file, old_filename=f"a/{...}", ...)`). -/
def flushFile (st : ParseState) : List FileChange :=
  match st.current_file with
  | none => st.file_changes
  | some f =>
    st.file_changes ++ [{ filename := f
                          old_filename := 'a' :: '/' :: f
                          new_filename := 'b' :: '/' :: f
                          changes := st.current_changes }]

/-- One iteration of the body-line classification (lines 112-143 of
diff_parser.py), reached when the line is neither a file header nor a
hunk header. -/
def stepBodyLine (line : List Char) (st : ParseState) : ParseState :=
  if startsWith "-".data line then
    { st with
      current_changes := st.current_changes ++
        [{ line_number := st.old_line_num
           change_type := ChangeType.deletion
           old_line := some (line.drop 1)
           new_line := none }]
      old_line_num := st.old_line_num + 1 }
  else if startsWith "+".data line then
    { st with
      current_changes := st.current_changes ++
        [{ line_number := st.new_line_num
           change_type := ChangeType.addition
           old_line := none
           new_line := some (line.drop 1) }]
      new_line_num := st.new_line_num + 1 }
  else if startsWith " ".data line || (!startsWith "@@".data line && st.current_file.isSome) then
    { st with
      current_changes := st.current_changes ++
        [{ line_number := st.old_line_num
           change_type := ChangeType.context
           old_line := some (if startsWith " ".data line then line.drop 1 else line)
           new_line := some (if startsWith " ".data line then line.drop 1 else line) }]
      old_line_num := st.old_line_num + 1
      new_line_num := st.new_line_num + 1 }
  else st

/-- The `while i < len(lines)` loop of `DiffParser.parse`, as structural
recursion over the remaining lines.  A file header consumes the following
line as well (after checking it against the `+++ b/` pattern). -/
def parseLines (lines : List (List Char)) (st : ParseState) : Except (List Char) ParseState :=
  match lines with
  | [] => Except.ok st
  | line :: rest =>
    match matchFileHeader line with
    | some name =>
      let st' : ParseState :=
        { file_changes := flushFile st
          current_file := some name
          current_changes := []
          old_line_num := st.old_line_num
          new_line_num := st.new_line_num }
      match rest with
      | [] => Except.ok st'
      | next :: rest' =>
        if (matchNewFile next).isSome then parseLines rest' st'
        else Except.error "Invalid diff format: expected +++ line after ---".data
    | none =>
      match matchHunkHeader line with
      | some (oldStart, newStart) =>
        parseLines rest { st with old_line_num := oldStart, new_line_num := newStart }
      | none => parseLines rest (stepBodyLine line st)

/-- `DiffParser._detect_modifications`: merge each Deletion immediately
followed by an Addition into a Modification. -/
def detectModifications : List DiffChange → List DiffChange
  | [] => []
  | [current] => [current]
  | current :: next :: rest' =>
    if current.change_type = ChangeType.deletion &&
       next.change_type = ChangeType.addition then
      { line_number := current.line_number
        change_type := ChangeType.modification
        old_line := current.old_line
        new_line := next.new_line } :: detectModifications rest'
    else current :: detectModifications (next :: rest')

/-- `DiffParser.parse`: parse git diff content into the structured format. -/
def parse (diff_content : List Char) : Except (List Char) DiffResult :=
  if strip diff_content = [] then Except.ok { file_changes := [] }
  else
    let lines := splitLines (strip diff_content)
    let st0 : ParseState :=
      { file_changes := [], current_file := none, current_changes := []
        old_line_num := 0, new_line_num := 0 }
    match parseLines lines st0 with
    | Except.error e => Except.error e
    | Except.ok st =>
      let file_changes := flushFile st
      if file_changes = [] then
        Except.error "Invalid diff format: no valid file changes found".data
      else
        Except.ok { file_changes :=
          file_changes.map (fun fc => { fc with changes := detectModifications fc.changes }) }

/-! ### `DiffParser.extract_identifiers` -/

/-- ASCII word character, the `[a-zA-Z0-9_]` class of the identifier regex. -/
def isWordChar (c : Char) : Bool := c.isAlphanum || c = '_'

/-- First character of the identifier pattern: `[a-zA-Z_]`. -/
def isIdentStart (c : Char) : Bool := c.isAlpha || c = '_'

/-- `identifier_pattern.findall` for `\b[a-zA-Z_][a-zA-Z0-9_]*\b`: scan
left to right; a match starts at a word boundary (previous character, if
any, is not a word character) on a letter or underscore and extends over
the maximal word-character run; scanning resumes after each match. -/
def findIdentsGo (prev : Option Char) (s : List Char) : List (List Char) :=
  match s with
  | [] => []
  | c :: cs =>
    if (match prev with | none => true | some p => !isWordChar p) && isIdentStart c then
      (c :: cs.takeWhile isWordChar) :: findIdentsGo (some c) (cs.dropWhile isWordChar)
    else
      findIdentsGo (some c) cs
termination_by s.length
decreasing_by
  · simp only [List.length_cons]
    exact Nat.lt_succ_of_le (dropWhile_length_le _ _)
  · simp

/-- All matches of the identifier regex in a line. -/
def findIdentifiers (s : List Char) : List (List Char) := findIdentsGo none s

/-- `str.isdigit()` (restricted to ASCII digits). -/
def isdigitStr (s : List Char) : Bool := !s.isEmpty && s.all Char.isDigit

/-- The `rust_keywords` allowlist of `extract_identifiers`. -/
def rustKeywords : List (List Char) :=
  ["struct".data, "impl".data, "fn".data, "enum".data, "trait".data, "mod".data,
   "pub".data, "use".data, "let".data, "mut".data, "const".data, "static".data,
   "match".data, "if".data, "else".data, "loop".data, "for".data, "while".data,
   "return".data, "break".data, "continue".data, "Self".data, "self".data,
   "i32".data, "i64".data, "u32".data, "u64".data, "f32".data, "f64".data,
   "bool".data, "char".data, "str".data, "String".data, "Vec".data,
   "Option".data, "Result".data]

/-- `DiffParser.extract_identifiers`: tokens of every truthy
`old_line`/`new_line`, filtered to drop pure-digit tokens, with the
keyword intersection unioned back in.  The Python function returns a set;
here a list is returned and all claims are stated via membership. -/
def extractIdentifiers (diff_result : DiffResult) : List (List Char) :=
  let identifiers := diff_result.file_changes.flatMap (fun fc =>
    fc.changes.flatMap (fun c =>
      (match c.old_line with
       | some l => if l.isEmpty then [] else findIdentifiers l
       | none => []) ++
      (match c.new_line with
       | some l => if l.isEmpty then [] else findIdentifiers l
       | none => [])))
  let filtered := identifiers.filter (fun i => decide (1 ≤ i.length) && !isdigitStr i)
  filtered ++ rustKeywords.filter (fun k => identifiers.contains k)

/-! ### `RustCopartnerWorkflow._find_relevant_file` -/

/-- `str.lower()` (ASCII). -/
def lowerStr (s : List Char) : List Char := s.map Char.toLower

/-- Python's substring test `needle in haystack`. -/
def isInfixOf (needle haystack : List Char) : Bool :=
  match haystack with
  | [] => needle.isEmpty
  | _ :: hs => startsWith needle haystack || isInfixOf needle hs

/-- `Path(name).name`: the final path component (trailing-separator
normalisation is not modelled; diff file names do not end in `/`). -/
def basename (s : List Char) : List Char :=
  (s.reverse.takeWhile (fun c => c ≠ '/')).reverse

/-- `Path(a) / b`, rendered as a string. -/
def pathJoin (a b : List Char) : List Char := a ++ '/' :: b

/-- The three candidate paths tried for one `FileChange`
(`possible_paths` in `_find_relevant_file`). -/
def candidatePaths (project_path : List Char) (fc : FileChange) : List (List Char) :=
  [pathJoin project_path fc.filename,
   pathJoin (pathJoin project_path "src".data) fc.filename,
   pathJoin project_path (basename fc.filename)]

/-- The `for file_change in diff_result.file_changes` loop of
`_find_relevant_file`; `exists_` is the filesystem oracle for
`path.exists()`. -/
def findRelevantFileGo (exists_ : List Char → Bool) (project_path : List Char) :
    List FileChange → Option (List Char)
  | [] => none
  | fc :: rest =>
    match (candidatePaths project_path fc).find? exists_ with
    | some p => some p
    | none => findRelevantFileGo exists_ project_path rest

/-- `RustCopartnerWorkflow._find_relevant_file`: parse the diff (any
exception yields `None`), then return the first existing candidate path. -/
def findRelevantFile (exists_ : List Char → Bool)
    (diff_content project_path : List Char) : Option (List Char) :=
  match parse diff_content with
  | Except.error _ => none
  | Except.ok diff_result => findRelevantFileGo exists_ project_path diff_result.file_changes

/-! ### `RustCopartnerWorkflow._is_relevant_file` -/

/-- `RustCopartnerWorkflow._is_relevant_file`: some identifier is a
case-insensitive substring, or some underscore-delimited component of an
identifier longer than 3 characters is. -/
def isRelevantFile (content : List Char) (identifiers : List (List Char)) : Bool :=
  let content_lower := lowerStr content
  identifiers.any (fun i => isInfixOf (lowerStr i) content_lower) ||
  identifiers.any (fun i =>
    decide (3 < i.length) &&
    (splitOnChar '_' (lowerStr i)).any (fun part => isInfixOf part content_lower))

/-! ### `RustCopartnerWorkflow._extract_relevant_snippets` -/

/-- `if x not in acc: acc.append(x)` — the deduplicating append used for
snippets. -/
def appendIfNew (acc : List (List Char)) (x : List Char) : List (List Char) :=
  if acc.contains x then acc else acc ++ [x]

/-- `'\n'.join(ls)`. -/
def joinLines (ls : List (List Char)) : List Char := List.intercalate "\n".data ls

/-- The line-window pass of `_extract_relevant_snippets`: for each line
containing an identifier (exact substring), a snippet of the lines from
`max(0, i-2)` to `min(len, i+3)`, labeled `From <basename>:`, appended if
not already collected. -/
def lineWindowSnippets (lines : List (List Char)) (identifiers : List (List Char))
    (base : List Char) (acc : List (List Char)) : List (List Char) :=
  (lines.enum).foldl (fun snips (i, line) =>
    if identifiers.any (fun ident => isInfixOf ident line) then
      let start := i - 2
      let stop := min lines.length (i + 3)
      let snippet := joinLines ((lines.drop start).take (stop - start))
      appendIfNew snips ("From ".data ++ base ++ ":\n".data ++ snippet)
    else snips) acc

/-- Python whitespace class `\s` (same ASCII set as `str.strip`). -/
def takeSpaces (s : List Char) : List Char × List Char :=
  (s.takeWhile isPySpace, s.dropWhile isPySpace)

/-- `\s+(\w+)` — at least one whitespace character, then the captured
word run; returns the name and the remaining text after the match. -/
def matchSpacesName (s : List Char) : Option (List Char × List Char) :=
  let sp := s.takeWhile isPySpace
  if sp.isEmpty then none
  else
    let t := s.dropWhile isPySpace
    let name := t.takeWhile isWordChar
    if name.isEmpty then none else some (name, t.dropWhile isWordChar)

/-- `struct_pattern = ^(pub\s+)?struct\s+(\w+)` attempted at one line
start; returns (`group(1)`, `group(2)`, rest after the match). -/
def matchStructAt (s : List Char) : Option (Option (List Char) × List Char × List Char) :=
  let core (t : List Char) : Option (List Char × List Char) :=
    if startsWith "struct".data t then matchSpacesName (t.drop 6) else none
  if startsWith "pub".data s then
    let sp := (s.drop 3).takeWhile isPySpace
    if sp.isEmpty then
      match core s with
      | some (name, rest) => some (none, name, rest)
      | none => none
    else
      match core ((s.drop 3).dropWhile isPySpace) with
      | some (name, rest) => some (some ("pub".data ++ sp), name, rest)
      | none =>
        match core s with
        | some (name, rest) => some (none, name, rest)
        | none => none
  else
    match core s with
    | some (name, rest) => some (none, name, rest)
    | none => none

/-- `impl_pattern = ^impl(?:\s*<[^>]*>)?\s+(\w+)` attempted at one line
start; returns (`group(1)`, rest after the match). -/
def matchImplAt (s : List Char) : Option (List Char × List Char) :=
  if startsWith "impl".data s then
    let t := s.drop 4
    let generics : Option (List Char) :=
      match t.dropWhile isPySpace with
      | '<' :: v =>
        match v.dropWhile (fun c => c ≠ '>') with
        | '>' :: w => some w
        | _ => none
      | _ => none
    match generics with
    | some w =>
      match matchSpacesName w with
      | some r => some r
      | none => matchSpacesName t
    | none => matchSpacesName t
  else none

/-- `fn_pattern = ^(?:pub\s+)?fn\s+(\w+)` attempted at one line start;
returns (`group(1)`, rest after the match). -/
def matchFnAt (s : List Char) : Option (List Char × List Char) :=
  let core (t : List Char) : Option (List Char × List Char) :=
    if startsWith "fn".data t then matchSpacesName (t.drop 2) else none
  if startsWith "pub".data s then
    let sp := (s.drop 3).takeWhile isPySpace
    if sp.isEmpty then core s
    else
      match core ((s.drop 3).dropWhile isPySpace) with
      | some r => some r
      | none => core s
  else core s

/-- Suffixes of the content that begin immediately after a newline — the
positions (other than position 0) where the `re.MULTILINE` anchor `^`
can match. -/
def newlineSuffixes : List Char → List (List Char)
  | [] => []
  | c :: cs => if c = '\n' then cs :: newlineSuffixes cs else newlineSuffixes cs

/-- All `^` anchor positions of the content, as (line index, suffix). -/
def lineSuffixes (content : List Char) : List (Nat × List Char) :=
  (content :: newlineSuffixes content).enum

/-- `pattern.finditer(content)` for a line-anchored pattern: try the
matcher at each line start in order, skipping starts that fall inside a
previous match (matches are non-overlapping); yields the start line index
and the match data. -/
def finditerAnchored {α : Type} (matcher : List Char → Option (α × List Char))
    (content : List Char) : List (Nat × α) :=
  go (lineSuffixes content) (content.length + 1)
where
  go : List (Nat × List Char) → Nat → List (Nat × α)
    | [], _ => []
    | (i, suf) :: rest, allow =>
      if suf.length ≤ allow then
        match matcher suf with
        | some (a, rem) => (i, a) :: go rest rem.length
        | none => go rest allow
      else go rest allow

/-- How many times `ch` occurs in a line (`line.count(ch)`). -/
def countChar (ch : Char) (line : List Char) : Nat :=
  (line.filter (fun c => c = ch)).length

/-- The brace-counting loop of the structural-block extraction: append
each line; on seeing the first `{` start tracking; subtract `}` counts
once tracking; stop when the count falls to 0 or below. -/
def extractBlockGo : List (List Char) → Int → Bool → List (List Char)
  | [], _, _ => []
  | l :: ls, braceCount, foundOpening =>
    let found := foundOpening || l.contains '{'
    let count1 := braceCount + (countChar '{' l : Int)
    let count2 := if found then count1 - (countChar '}' l : Int) else count1
    if found && count2 ≤ 0 then [l]
    else l :: extractBlockGo ls count2 found

/-- Block extraction from `line_num`: at most 20 lines, bounded by brace
balance (`_extract_relevant_snippets`, the `for i in range(...)` loop). -/
def extractBlock (lines : List (List Char)) (line_num : Nat) : List (List Char) :=
  extractBlockGo ((lines.drop line_num).take 20) 0 false

/-- The Python condition
`match.group(1) in identifiers or (len(match.groups()) > 1 and match.group(2) in identifiers)`
over the list of captured groups. -/
def groupCondition (groups : List (Option (List Char))) (identifiers : List (List Char)) : Bool :=
  (match groups.head? with
   | some (some g) => identifiers.contains g
   | _ => false) ||
  (decide (1 < groups.length) &&
   (match groups[1]? with
    | some (some g) => identifiers.contains g
    | _ => false))

/-- One pattern's contribution to the structural-block pass: for each
match whose captured groups meet `groupCondition`, extract the block and
append its labeled snippet if new. -/
def structuralSnippetsFor (found : List (Nat × List (Option (List Char))))
    (identifiers : List (List Char)) (lines : List (List Char))
    (base blockType : List Char) (acc : List (List Char)) : List (List Char) :=
  found.foldl (fun snips (line_num, groups) =>
    if groupCondition groups identifiers then
      let block_lines := extractBlock lines line_num
      if block_lines.isEmpty then snips
      else
        appendIfNew snips
          ("From ".data ++ base ++ " (".data ++ blockType ++ " block):\n".data ++
           joinLines block_lines)
    else snips) acc

/-- `RustCopartnerWorkflow._extract_relevant_snippets`: line-window pass,
then the struct, impl and fn structural passes, sharing one deduplicated
accumulator. -/
def extractRelevantSnippets (content : List Char) (identifiers : List (List Char))
    (file_path : List Char) : List (List Char) :=
  let lines := splitOnChar '\n' content
  let base := basename file_path
  let s1 := lineWindowSnippets lines identifiers base []
  let structMatches :=
    finditerAnchored (fun s =>
      match matchStructAt s with
      | some (g1, name, rest) => some ([g1, some name], rest)
      | none => none) content
  let implMatches :=
    finditerAnchored (fun s =>
      match matchImplAt s with
      | some (name, rest) => some ([some name], rest)
      | none => none) content
  let fnMatches :=
    finditerAnchored (fun s =>
      match matchFnAt s with
      | some (name, rest) => some ([some name], rest)
      | none => none) content
  let s2 := structuralSnippetsFor structMatches identifiers lines base "struct".data s1
  let s3 := structuralSnippetsFor implMatches identifiers lines base "impl".data s2
  structuralSnippetsFor fnMatches identifiers lines base "fn".data s3

/-! ### `RustCopartnerWorkflow._collect_project_context` -/

/-- The `for file_path in rust_files` loop: read each file (a failing
read is caught and skips only that file), keep snippets of relevant
files. -/
def collectBody (rust_files : List (List Char))
    (readFile : List Char → Except Unit (List Char))
    (identifiers : List (List Char)) : List (List Char) :=
  rust_files.foldl (fun context fp =>
    match readFile fp with
    | Except.error _ => context
    | Except.ok content =>
      if isRelevantFile content identifiers then
        context ++ extractRelevantSnippets content identifiers fp
      else context) []

/-- `RustCopartnerWorkflow._collect_project_context`.  File enumeration
(`_find_rust_files`, OS-dependent) and per-file reads are oracles that
may fail; the outer `try/except` degrades any escaping failure to `[]`.
The `Except` return type records that the Python function could in
principle raise — the theorems prove it never does. -/
def collectProjectContext (findRustFiles : Except Unit (List (List Char)))
    (readFile : List Char → Except Unit (List Char))
    (identifiers : List (List Char)) (max_context_items : Nat) :
    Except Unit (List (List Char)) :=
  match (do
    let files ← findRustFiles
    pure ((collectBody files readFile identifiers).take max_context_items) :
      Except Unit (List (List Char))) with
  | Except.error _ => Except.ok []
  | Except.ok v => Except.ok v

/-! ### Auxiliary predicates used to state the claims -/

/-- `True` exactly on `Except.error`. -/
def isError {ε α : Type} : Except ε α → Bool
  | Except.error _ => true
  | Except.ok _ => false

/-- The change-shape invariant of the data model: exactly one of
old/new text absent for Addition/Deletion, both present for
Modification/Context. -/
def changeInv (c : DiffChange) : Bool :=
  match c.change_type with
  | ChangeType.addition => c.old_line.isNone && c.new_line.isSome
  | ChangeType.deletion => c.old_line.isSome && c.new_line.isNone
  | ChangeType.modification => c.old_line.isSome && c.new_line.isSome
  | ChangeType.context => c.old_line.isSome && c.new_line.isSome

/-- Characterisation of the scan error: some `--- a/` header line is
followed by an existing next line that does not match the `+++ b/`
pattern (lines consumed as a matching `+++` are skipped). -/
def hasBadHeaderPair : List (List Char) → Bool
  | [] => false
  | line :: rest =>
    if (matchFileHeader line).isSome then
      match rest with
      | [] => false
      | next :: rest' =>
        if (matchNewFile next).isSome then hasBadHeaderPair rest' else true
    else hasBadHeaderPair rest

/-- Some line matches the `--- a/` file-header pattern. -/
def hasFileHeaderLine (lines : List (List Char)) : Bool :=
  lines.any (fun l => (matchFileHeader l).isSome)

/-- Modelled from the spec: the "alphanumeric token" notion of the
testable-properties section — maximal runs of word characters (ASCII
letters, digits, underscore) of a line.  Used to compare the spec's
superset property with the code's identifier extraction. -/
def alnumTokens (s : List Char) : List (List Char) :=
  match s with
  | [] => []
  | c :: cs =>
    if isWordChar c then
      (c :: cs.takeWhile isWordChar) :: alnumTokens (cs.dropWhile isWordChar)
    else alnumTokens cs
termination_by s.length
decreasing_by
  · simp only [List.length_cons]
    exact Nat.lt_succ_of_le (dropWhile_length_le _ _)
  · simp

/-! ## Supporting lemmas -/

theorem startsWith_cons_iff (p : Char) (ps s : List Char) :
    startsWith (p :: ps) s = true ↔ ∃ t, s = p :: t ∧ startsWith ps t = true := by
  cases s with
  | nil => simp [startsWith]
  | cons c cs =>
    simp only [startsWith, Bool.and_eq_true, decide_eq_true_eq]
    constructor
    · rintro ⟨h1, h2⟩
      exact ⟨cs, by rw [h1], h2⟩
    · rintro ⟨t, ht, h2⟩
      rw [List.cons.injEq] at ht
      exact ⟨ht.1.symm, ht.2 ▸ h2⟩

/-- A line starting with `@@` cannot match the `--- a/` file-header pattern. -/
theorem matchFileHeader_none_of_at (line : List Char)
    (h : startsWith "@@".data line = true) : matchFileHeader line = none := by
  rw [show ("@@".data : List Char) = '@' :: "@".data from rfl, startsWith_cons_iff] at h
  obtain ⟨t, rfl, -⟩ := h
  simp [matchFileHeader, startsWith]

/-- A line starting with `+` cannot match the `--- a/` file-header pattern. -/
theorem matchFileHeader_none_of_plus (line : List Char)
    (h : startsWith "+".data line = true) : matchFileHeader line = none := by
  rw [show ("+".data : List Char) = '+' :: [] from rfl, startsWith_cons_iff] at h
  obtain ⟨t, rfl, -⟩ := h
  simp [matchFileHeader, startsWith]

/-- A line not starting with `-` cannot match the `--- a/` file-header pattern. -/
theorem matchFileHeader_none_of_not_dash (line : List Char)
    (h : startsWith "-".data line = false) : matchFileHeader line = none := by
  cases line with
  | nil => simp [matchFileHeader, startsWith]
  | cons c cs =>
    rw [show ("-".data : List Char) = '-' :: [] from rfl] at h
    by_cases hc : c = '-'
    · subst hc
      simp [startsWith] at h
    · simp [matchFileHeader, startsWith, Ne.symm hc]

/-- A line not starting with `@@` cannot match the hunk-header pattern. -/
theorem matchHunkHeader_none_of_not_at (line : List Char)
    (h : startsWith "@@".data line = false) : matchHunkHeader line = none := by
  cases line with
  | nil => simp [matchHunkHeader, startsWith]
  | cons c cs =>
    cases cs with
    | nil =>
      simp only [matchHunkHeader]
      simp [startsWith]
    | cons c2 cs2 =>
      simp only [show ("@@".data : List Char) = '@' :: '@' :: [] from rfl, startsWith] at h
      simp only [matchHunkHeader, show ("@@ -".data : List Char) = '@' :: '@' :: ' ' :: '-' :: [] from rfl,
        startsWith]
      rcases Bool.and_eq_false_iff.mp h with h' | h'
      · simp [h']
      · rcases Bool.and_eq_false_iff.mp h' with h'' | h''
        · simp [h'']
        · simp [startsWith] at h''

/-- A line starting with `-` cannot match the hunk-header pattern. -/
theorem matchHunkHeader_none_of_dash (line : List Char)
    (h : startsWith "-".data line = true) : matchHunkHeader line = none := by
  rw [show ("-".data : List Char) = '-' :: [] from rfl, startsWith_cons_iff] at h
  obtain ⟨t, rfl, -⟩ := h
  simp [matchHunkHeader, startsWith]

/-- A line starting with `+` cannot match the hunk-header pattern. -/
theorem matchHunkHeader_none_of_plus (line : List Char)
    (h : startsWith "+".data line = true) : matchHunkHeader line = none := by
  rw [show ("+".data : List Char) = '+' :: [] from rfl, startsWith_cons_iff] at h
  obtain ⟨t, rfl, -⟩ := h
  simp [matchHunkHeader, startsWith]

/-- A line matching the hunk-header pattern cannot be a file header. -/
theorem matchFileHeader_none_of_hunk (line : List Char) (o n : Nat)
    (h : matchHunkHeader line = some (o, n)) : matchFileHeader line = none := by
  apply matchFileHeader_none_of_not_dash
  cases hd : startsWith "-".data line with
  | false => rfl
  | true =>
    rw [matchHunkHeader_none_of_dash line hd] at h
    cases h

/-- Unfolding one scan step on a body line (neither header pattern matches). -/
theorem parseLines_body_step (line : List Char) (rest : List (List Char)) (st : ParseState)
    (h1 : matchFileHeader line = none) (h2 : matchHunkHeader line = none) :
    parseLines (line :: rest) st = parseLines rest (stepBodyLine line st) := by
  simp [parseLines, h1, h2]

/-- Unfolding one scan step on a hunk header. -/
theorem parseLines_hunk_step (line : List Char) (rest : List (List Char)) (st : ParseState)
    (o n : Nat) (h : matchHunkHeader line = some (o, n)) :
    parseLines (line :: rest) st =
      parseLines rest { st with old_line_num := o, new_line_num := n } := by
  simp [parseLines, matchFileHeader_none_of_hunk line o n h, h]

/-- A line starting with `--- ` starts with `-`. -/
theorem startsWith_dash_of_dashes (line : List Char)
    (h : startsWith "--- ".data line = true) : startsWith "-".data line = true := by
  rw [show ("--- ".data : List Char) = '-' :: "-- ".data from rfl, startsWith_cons_iff] at h
  obtain ⟨t, rfl, -⟩ := h
  simp [startsWith]

/-! ## Claim theorems -/

/-- C10: while scanning, a line that begins with `@@` but does not match the
full hunk-header pattern is silently discarded: the scan continues on the
rest of the lines with the state (current changes, both counters) unchanged,
and no error is raised. -/
theorem hunk_junk_discarded (line : List Char) (rest : List (List Char)) (st : ParseState)
    (hat : startsWith "@@".data line = true) (hno : matchHunkHeader line = none)
    (hopen : st.current_file.isSome = true) :
    parseLines (line :: rest) st = parseLines rest st := by
  rw [parseLines_body_step line rest st (matchFileHeader_none_of_at line hat) hno]
  congr 1
  rw [show ("@@".data : List Char) = '@' :: '@' :: [] from rfl] at hat
  obtain ⟨t, rfl, h2⟩ := (startsWith_cons_iff _ _ _).mp hat
  obtain ⟨u, rfl, -⟩ := (startsWith_cons_iff _ _ _).mp h2
  simp [stepBodyLine, startsWith,
    show ("-".data : List Char) = ['-'] from rfl,
    show ("+".data : List Char) = ['+'] from rfl,
    show (" ".data : List Char) = [' '] from rfl,
    show ("@@".data : List Char) = ['@', '@'] from rfl]

/-- C10 witness: a concrete `@@ junk` line inside an open file section is
discarded. -/
theorem hunk_junk_discarded_witness :
    parseLines ["@@ junk".data] ⟨[], some "f".data, [], 3, 7⟩ =
      parseLines [] ⟨[], some "f".data, [], 3, 7⟩ :=
  hunk_junk_discarded "@@ junk".data [] ⟨[], some "f".data, [], 3, 7⟩
    (by decide) (by decide) (by decide)

/-- C9: a `--- ` line whose path lacks the `a/` prefix (such as
`--- /dev/null`) is not recognised as a file header; while a file section
is open it is scanned as a Deletion whose old text is the line with only
its first `-` removed. -/
theorem dev_null_line_is_deletion (line : List Char) (rest : List (List Char)) (st : ParseState)
    (hdash : startsWith "--- ".data line = true)
    (hnota : startsWith "--- a/".data line = false)
    (hopen : st.current_file.isSome = true) :
    matchFileHeader line = none ∧
    parseLines (line :: rest) st = parseLines rest
      { st with
        current_changes := st.current_changes ++
          [{ line_number := st.old_line_num
             change_type := ChangeType.deletion
             old_line := some (line.drop 1)
             new_line := none }]
        old_line_num := st.old_line_num + 1 } := by
  have hm : matchFileHeader line = none := by simp [matchFileHeader, hnota]
  have hd1 : startsWith "-".data line = true := startsWith_dash_of_dashes line hdash
  refine ⟨hm, ?_⟩
  rw [parseLines_body_step line rest st hm (matchHunkHeader_none_of_dash line hd1)]
  congr 1
  simp [stepBodyLine, hd1]

/-- C9 witness: `--- /dev/null` inside an open section becomes a Deletion
with old text `-- /dev/null`. -/
theorem dev_null_line_is_deletion_witness :
    matchFileHeader "--- /dev/null".data = none ∧
    parseLines ["--- /dev/null".data] ⟨[], some "f".data, [], 5, 9⟩ =
      parseLines []
        { file_changes := []
          current_file := some "f".data
          current_changes := [{ line_number := 5
                                change_type := ChangeType.deletion
                                old_line := some "-- /dev/null".data
                                new_line := none }]
          old_line_num := 6
          new_line_num := 9 } := by
  have h := dev_null_line_is_deletion "--- /dev/null".data []
    ⟨[], some "f".data, [], 5, 9⟩ (by decide) (by decide) (by decide)
  exact ⟨h.1, h.2.trans rfl⟩

/-- C4 counterexample: in `--- a/f`, `+++ b/f`, `@@ -1,2 +1,2 @@`, ` x`,
`@@ junk`, ` y`, the body line `@@ junk` is not a recognised header yet
produces no Context change: the parsed file has exactly two Context
changes, ` x` at line 1 and ` y` at line 2 (the claim would demand a
third change for `@@ junk` and ` y` numbered 3). -/
theorem parse_hunk_junk_cex :
    parse "--- a/f\n+++ b/f\n@@ -1,2 +1,2 @@\n x\n@@ junk\n y".data =
      Except.ok { file_changes :=
        [{ filename := "f".data
           old_filename := "a/f".data
           new_filename := "b/f".data
           changes :=
             [{ line_number := 1
                change_type := ChangeType.context
                old_line := some "x".data
                new_line := some "x".data },
              { line_number := 2
                change_type := ChangeType.context
                old_line := some "y".data
                new_line := some "y".data }] }] } := by
  rfl

/-- C4 (amended): while scanning, with headers handled first: a body line
starting with `-` yields a Deletion at the old counter and bumps only the
old counter; one starting with `+` yields an Addition at the new counter
and bumps only the new counter; any other line not starting with `@@`
(while a file is open) yields a Context at the old counter with one
leading space stripped if present, bumping both counters; a full hunk
header resets both counters.  (Lines starting with `@@` that fail the
hunk pattern are discarded — claim C10.) -/
theorem parse_body_line_classification (line : List Char) (rest : List (List Char))
    (st : ParseState) :
    (matchFileHeader line = none → startsWith "-".data line = true →
      parseLines (line :: rest) st = parseLines rest
        { st with
          current_changes := st.current_changes ++
            [{ line_number := st.old_line_num
               change_type := ChangeType.deletion
               old_line := some (line.drop 1)
               new_line := none }]
          old_line_num := st.old_line_num + 1 }) ∧
    (startsWith "+".data line = true →
      parseLines (line :: rest) st = parseLines rest
        { st with
          current_changes := st.current_changes ++
            [{ line_number := st.new_line_num
               change_type := ChangeType.addition
               old_line := none
               new_line := some (line.drop 1) }]
          new_line_num := st.new_line_num + 1 }) ∧
    (startsWith "-".data line = false → startsWith "+".data line = false →
      startsWith "@@".data line = false → st.current_file.isSome = true →
      parseLines (line :: rest) st = parseLines rest
        { st with
          current_changes := st.current_changes ++
            [{ line_number := st.old_line_num
               change_type := ChangeType.context
               old_line := some (if startsWith " ".data line then line.drop 1 else line)
               new_line := some (if startsWith " ".data line then line.drop 1 else line) }]
          old_line_num := st.old_line_num + 1
          new_line_num := st.new_line_num + 1 }) ∧
    (∀ o n, matchHunkHeader line = some (o, n) →
      parseLines (line :: rest) st = parseLines rest
        { st with old_line_num := o, new_line_num := n }) := by
  refine ⟨?_, ?_, ?_, ?_⟩
  · intro hm hd
    rw [parseLines_body_step line rest st hm (matchHunkHeader_none_of_dash line hd)]
    congr 1
    simp [stepBodyLine, hd]
  · intro hp
    rw [parseLines_body_step line rest st (matchFileHeader_none_of_plus line hp)
      (matchHunkHeader_none_of_plus line hp)]
    congr 1
    rw [show ("+".data : List Char) = '+' :: [] from rfl] at hp
    obtain ⟨t, rfl, -⟩ := (startsWith_cons_iff _ _ _).mp hp
    simp [stepBodyLine, startsWith,
      show ("-".data : List Char) = ['-'] from rfl,
      show ("+".data : List Char) = ['+'] from rfl]
  · intro h1 h2 h3 hopen
    rw [parseLines_body_step line rest st (matchFileHeader_none_of_not_dash line h1)
      (matchHunkHeader_none_of_not_at line h3)]
    congr 1
    simp [stepBodyLine, h1, h2, h3, hopen]
  · intro o n h
    exact parseLines_hunk_step line rest st o n h

/-- C4 witness: the four classification rules at concrete inputs. -/
theorem parse_body_line_classification_witness :
    (parseLines ["-old".data] ⟨[], some "f".data, [], 4, 8⟩ = parseLines []
      { file_changes := [], current_file := some "f".data,
        current_changes := [{ line_number := 4, change_type := ChangeType.deletion,
                              old_line := some "old".data, new_line := none }],
        old_line_num := 5, new_line_num := 8 }) ∧
    (parseLines ["+new".data] ⟨[], some "f".data, [], 4, 8⟩ = parseLines []
      { file_changes := [], current_file := some "f".data,
        current_changes := [{ line_number := 8, change_type := ChangeType.addition,
                              old_line := none, new_line := some "new".data }],
        old_line_num := 4, new_line_num := 9 }) ∧
    (parseLines [" ctx".data] ⟨[], some "f".data, [], 4, 8⟩ = parseLines []
      { file_changes := [], current_file := some "f".data,
        current_changes := [{ line_number := 4, change_type := ChangeType.context,
                              old_line := some "ctx".data, new_line := some "ctx".data }],
        old_line_num := 5, new_line_num := 9 }) ∧
    (parseLines ["@@ -10,2 +20,2 @@".data] ⟨[], some "f".data, [], 4, 8⟩ = parseLines []
      { file_changes := [], current_file := some "f".data, current_changes := [],
        old_line_num := 10, new_line_num := 20 }) := by
  refine ⟨?_, ?_, ?_, ?_⟩
  · exact ((parse_body_line_classification "-old".data [] ⟨[], some "f".data, [], 4, 8⟩).1
      (by decide) (by decide)).trans rfl
  · exact ((parse_body_line_classification "+new".data [] ⟨[], some "f".data, [], 4, 8⟩).2.1
      (by decide)).trans rfl
  · exact ((parse_body_line_classification " ctx".data [] ⟨[], some "f".data, [], 4, 8⟩).2.2.1
      (by decide) (by decide) (by decide) (by decide)).trans rfl
  · exact ((parse_body_line_classification "@@ -10,2 +20,2 @@".data []
      ⟨[], some "f".data, [], 4, 8⟩).2.2.2 10 20 (by decide)).trans rfl

/-- The pairing pass distributes over an append whose right part does not
start with an Addition (no merge can straddle the boundary, since a merge
requires the second element to be an Addition). -/
theorem detectModifications_append (l1 l2 : List DiffChange)
    (h : ∀ c, l2.head? = some c → c.change_type ≠ ChangeType.addition) :
    detectModifications (l1 ++ l2) = detectModifications l1 ++ detectModifications l2 := by
  induction l1 using detectModifications.induct with
  | case1 => simp [detectModifications]
  | case2 current =>
    cases hl2 : l2 with
    | nil => simp [detectModifications]
    | cons x xs =>
      have hx : x.change_type ≠ ChangeType.addition := h x (by simp [hl2])
      simp [detectModifications, hx]
  | case3 current next rest' hcond =>
    rename_i ih
    simp only [List.cons_append, detectModifications, hcond, if_true]
    simp [ih]
  | case4 current next rest' hcond =>
    rename_i ih
    simp only [List.cons_append, detectModifications, hcond, if_false]
    simp only [List.cons_append] at ih
    simp [ih]

/-- A change that is not a Deletion always passes through as the head. -/
theorem detectModifications_cons_nondel (x : DiffChange) (l : List DiffChange)
    (h : x.change_type ≠ ChangeType.deletion) :
    detectModifications (x :: l) = x :: detectModifications l := by
  cases l with
  | nil => simp [detectModifications]
  | cons y ys => simp [detectModifications, h]

/-- C1 counterexample: on the scan list Deletion, Deletion, Addition,
Addition the pairing pass produces Deletion, one Modification (second
deletion paired with first addition), Addition — not the two FIFO
Modifications the claim predicts. -/
theorem detectModifications_ddaa_cex :
    detectModifications
      [{ line_number := 1, change_type := ChangeType.deletion, old_line := some "d1".data, new_line := none },
       { line_number := 2, change_type := ChangeType.deletion, old_line := some "d2".data, new_line := none },
       { line_number := 1, change_type := ChangeType.addition, old_line := none, new_line := some "a1".data },
       { line_number := 2, change_type := ChangeType.addition, old_line := none, new_line := some "a2".data }] =
      [{ line_number := 1, change_type := ChangeType.deletion, old_line := some "d1".data, new_line := none },
       { line_number := 2, change_type := ChangeType.modification, old_line := some "d2".data, new_line := some "a1".data },
       { line_number := 2, change_type := ChangeType.addition, old_line := none, new_line := some "a2".data }] ∧
    (detectModifications
      [{ line_number := 1, change_type := ChangeType.deletion, old_line := some "d1".data, new_line := none },
       { line_number := 2, change_type := ChangeType.deletion, old_line := some "d2".data, new_line := none },
       { line_number := 1, change_type := ChangeType.addition, old_line := none, new_line := some "a1".data },
       { line_number := 2, change_type := ChangeType.addition, old_line := none, new_line := some "a2".data }]).countP
        (fun c => c.change_type = ChangeType.modification) = 1 := by
  constructor
  · rfl
  · rfl

/-- C1 (amended): the pass merges each Deletion immediately followed by an
Addition into one Modification (old text and line number from the
deletion, new text from the addition); a block of two Deletions followed
by two Additions produces Deletion, Modification (second deletion with
first addition), Addition — one Modification, not two. -/
theorem detectModifications_pairing (l1 l2 : List DiffChange)
    (d a d1 d2 a1 a2 : DiffChange)
    (hd : d.change_type = ChangeType.deletion) (ha : a.change_type = ChangeType.addition)
    (hd1 : d1.change_type = ChangeType.deletion) (hd2 : d2.change_type = ChangeType.deletion)
    (ha1 : a1.change_type = ChangeType.addition) (ha2 : a2.change_type = ChangeType.addition) :
    detectModifications (l1 ++ d :: a :: l2) =
      detectModifications l1 ++
        { line_number := d.line_number, change_type := ChangeType.modification,
          old_line := d.old_line, new_line := a.new_line } :: detectModifications l2 ∧
    detectModifications (l1 ++ d1 :: d2 :: a1 :: a2 :: l2) =
      detectModifications l1 ++ d1 ::
        { line_number := d2.line_number, change_type := ChangeType.modification,
          old_line := d2.old_line, new_line := a1.new_line } :: a2 ::
        detectModifications l2 := by
  constructor
  · rw [detectModifications_append l1 (d :: a :: l2)
      (by intro c hc; simp at hc; rw [← hc, hd]; intro h; cases h)]
    simp [detectModifications, hd, ha]
  · rw [detectModifications_append l1 (d1 :: d2 :: a1 :: a2 :: l2)
      (by intro c hc; simp at hc; rw [← hc, hd1]; intro h; cases h)]
    have h1 : detectModifications (d1 :: d2 :: a1 :: a2 :: l2) =
        d1 :: detectModifications (d2 :: a1 :: a2 :: l2) := by
      simp [detectModifications, hd2]
    have h2 : detectModifications (d2 :: a1 :: a2 :: l2) =
        { line_number := d2.line_number, change_type := ChangeType.modification,
          old_line := d2.old_line, new_line := a1.new_line } ::
          detectModifications (a2 :: l2) := by
      simp [detectModifications, hd2, ha1]
    have h3 : detectModifications (a2 :: l2) = a2 :: detectModifications l2 :=
      detectModifications_cons_nondel a2 l2 (by rw [ha2]; intro h; cases h)
    rw [h1, h2, h3]

/-- C1 witness: the amended pairing law at a concrete input. -/
theorem detectModifications_pairing_witness :
    detectModifications
      [{ line_number := 9, change_type := ChangeType.context, old_line := some "c".data, new_line := some "c".data },
       { line_number := 3, change_type := ChangeType.deletion, old_line := some "x".data, new_line := none },
       { line_number := 5, change_type := ChangeType.addition, old_line := none, new_line := some "y".data }] =
      [{ line_number := 9, change_type := ChangeType.context, old_line := some "c".data, new_line := some "c".data },
       { line_number := 3, change_type := ChangeType.modification, old_line := some "x".data, new_line := some "y".data }] := by
  have h := (detectModifications_pairing
    [{ line_number := 9, change_type := ChangeType.context, old_line := some "c".data, new_line := some "c".data }] []
    { line_number := 3, change_type := ChangeType.deletion, old_line := some "x".data, new_line := none }
    { line_number := 5, change_type := ChangeType.addition, old_line := none, new_line := some "y".data }
    { line_number := 0, change_type := ChangeType.deletion, old_line := some "p".data, new_line := none }
    { line_number := 0, change_type := ChangeType.deletion, old_line := some "q".data, new_line := none }
    { line_number := 0, change_type := ChangeType.addition, old_line := none, new_line := some "r".data }
    { line_number := 0, change_type := ChangeType.addition, old_line := none, new_line := some "s".data }
    rfl rfl rfl rfl rfl rfl).1
  exact h.trans rfl

/-! ## C8: the change-shape invariant -/

/-- The scan-state invariant: every already-flushed change and every
in-progress change satisfies `changeInv`. -/
def stInv (st : ParseState) : Prop :=
  (∀ fc ∈ st.file_changes, ∀ c ∈ fc.changes, changeInv c = true) ∧
  (∀ c ∈ st.current_changes, changeInv c = true)

theorem flushFile_inv (st : ParseState) (h : stInv st) :
    ∀ fc ∈ flushFile st, ∀ c ∈ fc.changes, changeInv c = true := by
  intro fc hfc
  unfold flushFile at hfc
  cases hcf : st.current_file with
  | none => rw [hcf] at hfc; exact h.1 fc hfc
  | some f =>
    rw [hcf] at hfc
    rcases List.mem_append.mp hfc with hl | hr
    · exact h.1 fc hl
    · intro c hc
      rw [List.mem_singleton] at hr
      subst hr
      exact h.2 c hc

theorem stepBodyLine_inv (line : List Char) (st : ParseState) (h : stInv st) :
    stInv (stepBodyLine line st) := by
  unfold stepBodyLine
  split
  · refine ⟨h.1, ?_⟩
    intro c hc
    rcases List.mem_append.mp hc with hl | hr
    · exact h.2 c hl
    · rw [List.mem_singleton] at hr
      subst hr
      simp [changeInv]
  · split
    · refine ⟨h.1, ?_⟩
      intro c hc
      rcases List.mem_append.mp hc with hl | hr
      · exact h.2 c hl
      · rw [List.mem_singleton] at hr
        subst hr
        simp [changeInv]
    · split
      · refine ⟨h.1, ?_⟩
        intro c hc
        rcases List.mem_append.mp hc with hl | hr
        · exact h.2 c hl
        · rw [List.mem_singleton] at hr
          subst hr
          simp [changeInv]
      · exact h

theorem parseLines_inv : ∀ (lines : List (List Char)) (st : ParseState),
    stInv st → ∀ st', parseLines lines st = Except.ok st' → stInv st' := by
  intro lines st
  induction lines, st using parseLines.induct with
  | case1 st =>
    intro h st' hok
    simp only [parseLines] at hok
    cases hok
    exact h
  | case2 st l name hname =>
    intro h st' hok
    simp only [parseLines, hname] at hok
    cases hok
    exact ⟨flushFile_inv st h, by intro c hc; simp at hc⟩
  | case3 st l name hname stmid l1 ls hnew ih =>
    intro h st' hok
    simp only [parseLines, hname, hnew, if_true] at hok
    exact ih ⟨flushFile_inv st h, by intro c hc; simp at hc⟩ st' hok
  | case4 st l name hname l1 ls hnew =>
    intro h st' hok
    simp only [parseLines, hname] at hok
    rw [if_neg hnew] at hok
    cases hok
  | case5 st l ls hname oldStart newStart hhunk ih =>
    intro h st' hok
    simp only [parseLines, hname, hhunk] at hok
    exact ih ⟨h.1, h.2⟩ st' hok
  | case6 st l ls hname hhunk ih =>
    intro h st' hok
    simp only [parseLines, hname, hhunk] at hok
    exact ih (stepBodyLine_inv l st h) st' hok

theorem detectModifications_inv (l : List DiffChange)
    (h : ∀ c ∈ l, changeInv c = true) :
    ∀ c ∈ detectModifications l, changeInv c = true := by
  induction l using detectModifications.induct with
  | case1 => intro c hc; simp [detectModifications] at hc
  | case2 current =>
    intro c hc
    rw [detectModifications] at hc
    rw [List.mem_singleton] at hc
    subst hc
    exact h c (by simp)
  | case3 current next rest' hcond ih =>
    intro c hc
    rw [detectModifications, if_pos hcond] at hc
    rcases List.mem_cons.mp hc with rfl | hc'
    · have hcur := h current (by simp)
      have hnext := h next (by simp)
      rw [Bool.and_eq_true, decide_eq_true_eq, decide_eq_true_eq] at hcond
      simp only [changeInv, hcond.1] at hcur
      simp only [changeInv, hcond.2] at hnext
      simp only [changeInv]
      rw [Bool.and_eq_true] at hcur hnext ⊢
      exact ⟨hcur.1, hnext.2⟩
    · exact ih (fun x hx =>
        h x (List.mem_cons_of_mem _ (List.mem_cons_of_mem _ hx))) c hc'
  | case4 current next rest' hcond ih =>
    intro c hc
    rw [detectModifications, if_neg (by simp [hcond])] at hc
    rcases List.mem_cons.mp hc with rfl | hc'
    · exact h c (by simp)
    · exact ih (fun x hx => h x (List.mem_cons_of_mem _ hx)) c hc'

/-- C8: every change in every `FileChange` of a parse result has the
shape required by its kind: Addition has only new text, Deletion only
old text, Modification and Context both. -/
theorem parse_change_shape (d : List Char) (r : DiffResult)
    (hok : parse d = Except.ok r) :
    ∀ fc ∈ r.file_changes, ∀ c ∈ fc.changes, changeInv c = true := by
  simp only [parse] at hok
  split at hok
  · cases hok
    intro fc hfc
    simp at hfc
  · cases hpl : parseLines (splitLines (strip d))
      { file_changes := [], current_file := none, current_changes := [],
        old_line_num := 0, new_line_num := 0 } with
    | error e =>
      rw [hpl] at hok
      cases hok
    | ok st =>
      rw [hpl] at hok
      simp only at hok
      split at hok
      · cases hok
      · cases hok
        have hinv : stInv st := by
          refine parseLines_inv (splitLines (strip d)) _ ?_ st hpl
          exact ⟨by intro fc hfc; simp at hfc, by intro c hc; simp at hc⟩
        have hflush := flushFile_inv st hinv
        intro fc hfc c hc
        simp only [List.mem_map] at hfc
        obtain ⟨fc0, hfc0, rfl⟩ := hfc
        simp only at hc
        exact detectModifications_inv fc0.changes (hflush fc0 hfc0) c hc

/-- C8 witness: the invariant evaluated on a concrete parsed change. -/
theorem parse_change_shape_witness :
    changeInv { line_number := 1, change_type := ChangeType.modification,
                old_line := some "u".data, new_line := some "v".data } = true :=
  parse_change_shape "--- a/f\n+++ b/f\n@@ -1,1 +1,1 @@\n-u\n+v".data
    { file_changes :=
        [{ filename := "f".data
           old_filename := "a/f".data
           new_filename := "b/f".data
           changes := [{ line_number := 1
                         change_type := ChangeType.modification
                         old_line := some "u".data
                         new_line := some "v".data }] }] }
    (by rfl)
    { filename := "f".data
      old_filename := "a/f".data
      new_filename := "b/f".data
      changes := [{ line_number := 1
                    change_type := ChangeType.modification
                    old_line := some "u".data
                    new_line := some "v".data }] }
    (by simp)
    { line_number := 1, change_type := ChangeType.modification,
      old_line := some "u".data, new_line := some "v".data }
    (by simp)

/-! ## C2: when `parse` raises -/

theorem flushFile_eq_nil_iff (st : ParseState) :
    flushFile st = [] ↔ (st.file_changes = [] ∧ st.current_file = none) := by
  unfold flushFile
  cases h : st.current_file with
  | none => simp [h]
  | some f => simp [h]

theorem stepBodyLine_file_fields (line : List Char) (st : ParseState) :
    (stepBodyLine line st).file_changes = st.file_changes ∧
    (stepBodyLine line st).current_file = st.current_file := by
  unfold stepBodyLine
  split
  · exact ⟨rfl, rfl⟩
  · split
    · exact ⟨rfl, rfl⟩
    · split
      · exact ⟨rfl, rfl⟩
      · exact ⟨rfl, rfl⟩

theorem hasBadHeaderPair_cons_none (l : List Char) (ls : List (List Char))
    (h : matchFileHeader l = none) :
    hasBadHeaderPair (l :: ls) = hasBadHeaderPair ls := by
  conv_lhs => rw [hasBadHeaderPair.eq_def]
  simp [h]

/-- The scan fails exactly on a bad `---`/`+++` header pair, regardless of
the state it starts from. -/
theorem parseLines_error_iff : ∀ (lines : List (List Char)) (st : ParseState),
    isError (parseLines lines st) = hasBadHeaderPair lines := by
  intro lines st
  induction lines, st using parseLines.induct with
  | case1 st => simp [parseLines, hasBadHeaderPair, isError]
  | case2 st l name hname =>
    simp [parseLines, hasBadHeaderPair, hname, isError]
  | case3 st l name hname stmid l1 ls hnew ih =>
    simp only [parseLines, hname, hnew, if_true]
    simp [hasBadHeaderPair, hname, hnew, ih]
  | case4 st l name hname l1 ls hnew =>
    simp only [parseLines, hname]
    rw [if_neg hnew]
    simp only [hasBadHeaderPair, hname, Option.isSome_some, if_true]
    simp [isError, hnew]
  | case5 st l ls hname oldStart newStart hhunk ih =>
    simp only [parseLines, hname, hhunk]
    rw [hasBadHeaderPair_cons_none l ls hname]
    exact ih
  | case6 st l ls hname hhunk ih =>
    simp only [parseLines, hname, hhunk]
    rw [hasBadHeaderPair_cons_none l ls hname]
    exact ih

/-- After a successful scan, the final state holds no file section exactly
when it started with none and no line matched the `--- a/` pattern. -/
theorem parseLines_sections : ∀ (lines : List (List Char)) (st : ParseState),
    ∀ st', parseLines lines st = Except.ok st' →
      ((st'.file_changes = [] ∧ st'.current_file = none) ↔
        ((st.file_changes = [] ∧ st.current_file = none) ∧
          hasFileHeaderLine lines = false)) := by
  intro lines st
  induction lines, st using parseLines.induct with
  | case1 st =>
    intro st' hok
    simp only [parseLines] at hok
    cases hok
    simp [hasFileHeaderLine]
  | case2 st l name hname =>
    intro st' hok
    simp only [parseLines, hname] at hok
    cases hok
    simp [hasFileHeaderLine, hname]
  | case3 st l name hname stmid l1 ls hnew ih =>
    intro st' hok
    simp only [parseLines, hname, hnew, if_true] at hok
    have h := ih st' hok
    simp only at h
    simp only [h]
    simp [hasFileHeaderLine, hname]
  | case4 st l name hname l1 ls hnew =>
    intro st' hok
    simp only [parseLines, hname] at hok
    rw [if_neg hnew] at hok
    cases hok
  | case5 st l ls hname oldStart newStart hhunk ih =>
    intro st' hok
    simp only [parseLines, hname, hhunk] at hok
    have h := ih st' hok
    simp only at h
    simp only [h]
    simp [hasFileHeaderLine, hname]
  | case6 st l ls hname hhunk ih =>
    intro st' hok
    simp only [parseLines, hname, hhunk] at hok
    have h := ih st' hok
    rw [(stepBodyLine_file_fields l st).1, (stepBodyLine_file_fields l st).2] at h
    simp only [h]
    simp [hasFileHeaderLine, hname]

/-- C2 counterexample: `parse` accepts a `+++ b/<name>` whose name differs
from the `--- a/<name>` (here `x` versus `y`), and accepts a `--- a/x`
header as the very last line with no `+++` after it at all — in both
situations the claim demands a `MalformedDiffError`. -/
theorem parse_header_mismatch_cex :
    isError (parse "--- a/x\n+++ b/y\n@@ -1,1 +1,1 @@\n-u\n+v".data) = false ∧
    parse "--- a/x".data =
      Except.ok { file_changes :=
        [{ filename := "x".data
           old_filename := "a/x".data
           new_filename := "b/x".data
           changes := [] }] } := by
  exact ⟨rfl, rfl⟩

/-- C2 (amended): `parse` fails exactly when the (stripped) text is
non-empty and either some `--- a/<name>` header line is immediately
followed by an existing line that does not match the `+++ b/<any name>`
pattern (the name need not match, and a `--- a/` header as the last line
is accepted), or no line matches the `--- a/` pattern at all; an empty or
whitespace-only input yields a model with zero FileChanges and no error. -/
theorem parse_error_characterisation (d : List Char) :
    (isError (parse d) = true ↔
      strip d ≠ [] ∧ (hasBadHeaderPair (splitLines (strip d)) = true ∨
        hasFileHeaderLine (splitLines (strip d)) = false)) ∧
    (strip d = [] → parse d = Except.ok { file_changes := [] }) := by
  constructor
  · simp only [parse]
    split
    · rename_i hempty
      simp [isError, hempty]
    · rename_i hne
      cases hpl : parseLines (splitLines (strip d))
        { file_changes := [], current_file := none, current_changes := [],
          old_line_num := 0, new_line_num := 0 } with
      | error e =>
        have hbad := parseLines_error_iff (splitLines (strip d))
          { file_changes := [], current_file := none, current_changes := [],
            old_line_num := 0, new_line_num := 0 }
        rw [hpl] at hbad
        simp only [isError] at hbad
        simp [isError, hne, ← hbad]
      | ok st =>
        have hbad := parseLines_error_iff (splitLines (strip d))
          { file_changes := [], current_file := none, current_changes := [],
            old_line_num := 0, new_line_num := 0 }
        rw [hpl] at hbad
        simp only [isError] at hbad
        have hsec := parseLines_sections (splitLines (strip d))
          { file_changes := [], current_file := none, current_changes := [],
            old_line_num := 0, new_line_num := 0 } st hpl
        simp only [and_true, true_and] at hsec
        simp only
        split
        · rename_i hflush
          have hnosec := (flushFile_eq_nil_iff st).mp hflush
          have hnohdr : hasFileHeaderLine (splitLines (strip d)) = false := by
            rw [← hsec.mp ⟨hnosec.1, hnosec.2⟩]
          simp [isError, hne, hnohdr]
        · rename_i hflush
          have hhdr : hasFileHeaderLine (splitLines (strip d)) = true := by
            by_contra hcontra
            rw [Bool.not_eq_true] at hcontra
            have := hsec.mpr hcontra
            exact hflush ((flushFile_eq_nil_iff st).mpr ⟨this.1, this.2⟩)
          simp [isError, ← hbad, hhdr]
  · intro hempty
    simp [parse, hempty]

/-- C2 witness: the characterisation applied to the concrete non-diff
input of Scenario C. -/
theorem parse_error_characterisation_witness :
    isError (parse "not a valid diff".data) = true :=
  (parse_error_characterisation "not a valid diff".data).1.mpr
    ⟨by decide, Or.inr (by decide)⟩

/-! ## C3: which FileChanges the file resolver considers -/

theorem find?_append_eq (p : List Char → Bool) (l1 l2 : List (List Char)) :
    (l1 ++ l2).find? p =
      match l1.find? p with
      | some x => some x
      | none => l2.find? p := by
  induction l1 with
  | nil => simp
  | cons x xs ih =>
    by_cases hx : p x
    · simp [List.find?_cons, hx]
    · simp only [List.cons_append, List.find?_cons, hx]
      exact ih

/-- The resolver loop scans the concatenated candidate lists of all
FileChanges and returns the first existing path. -/
theorem findRelevantFileGo_eq (ex : List Char → Bool) (project : List Char)
    (fcs : List FileChange) :
    findRelevantFileGo ex project fcs =
      (fcs.flatMap (candidatePaths project)).find? ex := by
  induction fcs with
  | nil => simp [findRelevantFileGo]
  | cons fc rest ih =>
    simp only [findRelevantFileGo, List.flatMap_cons,
      find?_append_eq ex (candidatePaths project fc)]
    cases h : (candidatePaths project fc).find? ex with
    | some p => simp [h]
    | none => simp [h, ih]

/-- C3 counterexample: on a two-file diff (`main.rs` then `lib.rs`) with a
filesystem where none of the first FileChange's three candidate paths
exists but `proj/lib.rs` does, the resolver returns `proj/lib.rs` instead
of the NotFound the claim requires. -/
theorem findRelevantFile_later_file_cex :
    findRelevantFile (fun p => p == "proj/lib.rs".data)
      "--- a/main.rs\n+++ b/main.rs\n@@ -1,1 +1,1 @@\n-a\n+b\n--- a/lib.rs\n+++ b/lib.rs\n@@ -1,1 +1,1 @@\n-c\n+d".data
      "proj".data = some "proj/lib.rs".data ∧
    (parse "--- a/main.rs\n+++ b/main.rs\n@@ -1,1 +1,1 @@\n-a\n+b\n--- a/lib.rs\n+++ b/lib.rs\n@@ -1,1 +1,1 @@\n-c\n+d".data).map
      (fun r => r.file_changes.head?.map
        (fun fc => (candidatePaths "proj".data fc).any (fun p => p == "proj/lib.rs".data))) =
      Except.ok (some false) := by
  exact ⟨rfl, rfl⟩

/-- C3 (amended): the resolver iterates over ALL FileChanges of the
parsed model in order, trying the three candidate paths of each, and
returns the first path that exists; it returns NotFound only when no
candidate path of any FileChange exists. -/
theorem findRelevantFile_all_files (ex : List Char → Bool) (d project : List Char)
    (r : DiffResult) (hok : parse d = Except.ok r) :
    findRelevantFile ex d project =
      (r.file_changes.flatMap (candidatePaths project)).find? ex := by
  unfold findRelevantFile
  rw [hok]
  exact findRelevantFileGo_eq ex project r.file_changes

/-- C3 witness: the amended law evaluated on the two-file diff. -/
theorem findRelevantFile_all_files_witness :
    findRelevantFile (fun p => p == "proj/lib.rs".data)
      "--- a/main.rs\n+++ b/main.rs\n@@ -1,1 +1,1 @@\n-a\n+b\n--- a/lib.rs\n+++ b/lib.rs\n@@ -1,1 +1,1 @@\n-c\n+d".data
      "proj".data = some "proj/lib.rs".data := by
  rw [findRelevantFile_all_files (fun p => p == "proj/lib.rs".data)
    "--- a/main.rs\n+++ b/main.rs\n@@ -1,1 +1,1 @@\n-a\n+b\n--- a/lib.rs\n+++ b/lib.rs\n@@ -1,1 +1,1 @@\n-c\n+d".data
    "proj".data
    { file_changes :=
      [{ filename := "main.rs".data
         old_filename := "a/main.rs".data
         new_filename := "b/main.rs".data
         changes := [{ line_number := 1
                       change_type := ChangeType.modification
                       old_line := some "a".data
                       new_line := some "b".data }] },
       { filename := "lib.rs".data
         old_filename := "a/lib.rs".data
         new_filename := "b/lib.rs".data
         changes := [{ line_number := 1
                       change_type := ChangeType.modification
                       old_line := some "c".data
                       new_line := some "d".data }] }] }
    (by rfl)]
  rfl

/-! ## C7: the context collector never raises -/

/-- C7: for every enumeration and read oracle, `collect` returns a value
(never an error): a failing enumeration degrades to the empty list, and a
file whose read fails is skipped with no effect on the others. -/
theorem collect_never_raises (findFiles : Except Unit (List (List Char)))
    (readFile : List Char → Except Unit (List Char))
    (identifiers : List (List Char)) (max_items : Nat) :
    (∃ v, collectProjectContext findFiles readFile identifiers max_items = Except.ok v) ∧
    (∀ e, findFiles = Except.error e →
      collectProjectContext findFiles readFile identifiers max_items = Except.ok []) ∧
    (∀ files, collectBody files readFile identifiers =
      collectBody (files.filter (fun f => !isError (readFile f))) readFile identifiers) := by
  refine ⟨?_, ?_, ?_⟩
  · unfold collectProjectContext
    cases findFiles with
    | error e => exact ⟨[], rfl⟩
    | ok files => exact ⟨_, rfl⟩
  · intro e he
    subst he
    rfl
  · intro files
    unfold collectBody
    generalize ([] : List (List Char)) = acc
    induction files generalizing acc with
    | nil => rfl
    | cons f fs ih =>
      cases hf : readFile f with
      | error e =>
        simp only [List.filter_cons, List.foldl_cons, hf, isError, Bool.not_true,
          if_false]
        exact ih acc
      | ok content =>
        simp only [List.filter_cons, List.foldl_cons, hf, isError, Bool.not_false,
          if_true]
        exact ih _

/-- C7 witness: a failing enumeration yields the empty context. -/
theorem collect_never_raises_witness :
    collectProjectContext (Except.error ()) (fun _ => Except.ok []) [] 5 =
      Except.ok [] :=
  (collect_never_raises (Except.error ()) (fun _ => Except.ok []) [] 5).2.1 () rfl

/-! ## C5: the identifier-extraction superset property -/

/-- Head of a token is a legal identifier start (`[a-zA-Z_]`). -/
def headIsIdentStart (t : List Char) : Bool :=
  match t with
  | [] => false
  | c :: _ => isIdentStart c

theorem isDigit_false_of_isAlpha (c : Char) (h : c.isAlpha = true) :
    c.isDigit = false := by
  simp only [Char.isAlpha, Char.isUpper, Char.isLower, Bool.or_eq_true,
    Bool.and_eq_true, decide_eq_true_eq] at h
  by_contra hd
  rw [Bool.not_eq_false] at hd
  simp only [Char.isDigit, Bool.and_eq_true, decide_eq_true_eq] at hd
  rcases h with ⟨h1, h2⟩ | ⟨h1, h2⟩
  · exact absurd (UInt32.le_trans h1 hd.2) (by decide)
  · exact absurd (UInt32.le_trans h1 hd.2) (by decide)

theorem isWordChar_of_isIdentStart (c : Char) (h : isIdentStart c = true) :
    isWordChar c = true := by
  unfold isIdentStart at h
  rw [Bool.or_eq_true] at h
  rcases h with h' | h'
  · simp [isWordChar, Char.isAlphanum, h']
  · rw [decide_eq_true_eq] at h'
    subst h'
    decide

theorem isDigit_false_of_isIdentStart (c : Char) (h : isIdentStart c = true) :
    c.isDigit = false := by
  unfold isIdentStart at h
  rw [Bool.or_eq_true] at h
  rcases h with h' | h'
  · exact isDigit_false_of_isAlpha c h'
  · rw [decide_eq_true_eq] at h'
    subst h'
    decide

theorem dropWhile_idem (p : Char → Bool) (l : List Char) :
    (l.dropWhile p).dropWhile p = l.dropWhile p := by
  induction l with
  | nil => simp
  | cons c cs ih =>
    by_cases h : p c
    · simp [List.dropWhile_cons, h, ih]
    · simp [List.dropWhile_cons, h]

/-- One-step unfolding of the scanner. -/
theorem findIdentsGo_cons (prev : Option Char) (c : Char) (cs : List Char) :
    findIdentsGo prev (c :: cs) =
      if (match prev with | none => true | some p => !isWordChar p) && isIdentStart c then
        (c :: cs.takeWhile isWordChar) :: findIdentsGo (some c) (cs.dropWhile isWordChar)
      else findIdentsGo (some c) cs := by
  rw [findIdentsGo.eq_def]

theorem findIdentsGo_nil (prev : Option Char) : findIdentsGo prev [] = [] := by
  rw [findIdentsGo.eq_def]

/-- One-step unfolding of the spec tokenisation. -/
theorem alnumTokens_cons (c : Char) (cs : List Char) :
    alnumTokens (c :: cs) =
      if isWordChar c then
        (c :: cs.takeWhile isWordChar) :: alnumTokens (cs.dropWhile isWordChar)
      else alnumTokens cs := by
  rw [alnumTokens.eq_def]

theorem alnumTokens_nil : alnumTokens [] = [] := by
  rw [alnumTokens.eq_def]

/-- The regex scan agrees with the spec tokenisation: a maximal
word-character run is reported exactly when its first character is a
letter or underscore.  Stated for both boundary states of the scanner. -/
theorem findIdentsGo_spec (n : Nat) : ∀ s : List Char, s.length ≤ n →
    (∀ prev : Option Char,
      (match prev with | none => true | some p => !isWordChar p) = true →
      findIdentsGo prev s = (alnumTokens s).filter headIsIdentStart) ∧
    (∀ p : Char, isWordChar p = true →
      findIdentsGo (some p) s =
        (alnumTokens (s.dropWhile isWordChar)).filter headIsIdentStart) := by
  induction n with
  | zero =>
    intro s hs
    have hnil : s = [] := List.eq_nil_of_length_eq_zero (Nat.le_zero.mp hs)
    subst hnil
    exact ⟨fun prev _ => by simp [findIdentsGo_nil, alnumTokens_nil],
           fun p _ => by simp [findIdentsGo_nil, alnumTokens_nil]⟩
  | succ n ih =>
    intro s hs
    cases s with
    | nil =>
      exact ⟨fun prev _ => by simp [findIdentsGo_nil, alnumTokens_nil],
             fun p _ => by simp [findIdentsGo_nil, alnumTokens_nil]⟩
    | cons c cs =>
      have hcs : cs.length ≤ n := by
        simp only [List.length_cons] at hs
        omega
      have hdropcs : (cs.dropWhile isWordChar).length ≤ n :=
        le_trans (dropWhile_length_le isWordChar cs) hcs
      constructor
      · intro prev hprev
        by_cases hstart : isIdentStart c = true
        · have hw := isWordChar_of_isIdentStart c hstart
          rw [findIdentsGo_cons, if_pos (by rw [hprev, hstart]; rfl)]
          rw [alnumTokens_cons, if_pos hw]
          rw [List.filter_cons]
          simp only [headIsIdentStart, hstart, if_true]
          have h2 := (ih (cs.dropWhile isWordChar) hdropcs).2 c hw
          rw [dropWhile_idem] at h2
          rw [h2]
        · rw [Bool.not_eq_true] at hstart
          rw [findIdentsGo_cons, if_neg (by simp [hstart])]
          by_cases hwc : isWordChar c = true
          · rw [alnumTokens_cons, if_pos hwc]
            rw [List.filter_cons]
            simp only [headIsIdentStart, hstart, if_false]
            exact (ih cs hcs).2 c hwc
          · rw [Bool.not_eq_true] at hwc
            rw [alnumTokens_cons, if_neg (by simp [hwc])]
            exact (ih cs hcs).1 (some c) (by simp [hwc])
      · intro p hp
        by_cases hwc : isWordChar c = true
        · rw [findIdentsGo_cons, if_neg (by simp [hp])]
          rw [List.dropWhile_cons, if_pos hwc]
          exact (ih cs hcs).2 c hwc
        · rw [Bool.not_eq_true] at hwc
          rw [findIdentsGo_cons, if_neg (by simp [hp])]
          rw [List.dropWhile_cons, if_neg (by simp [hwc])]
          rw [alnumTokens_cons, if_neg (by simp [hwc])]
          exact (ih cs hcs).1 (some c) (by simp [hwc])

/-- The identifier regex finds exactly the spec tokens whose head is a
letter or underscore. -/
theorem findIdentifiers_eq_filter (s : List Char) :
    findIdentifiers s = (alnumTokens s).filter headIsIdentStart :=
  (findIdentsGo_spec s.length s le_rfl).1 none rfl

/-- C5 counterexample: the token `3abc` of a deleted line is alphanumeric
and not purely numeric, yet it is absent from the extracted identifier
set, because the identifier pattern only matches tokens that start with a
letter or underscore. -/
theorem extractIdentifiers_digit_led_cex :
    parse "--- a/f\n+++ b/f\n@@ -1,1 +1,1 @@\n-3abc\n+x".data =
      Except.ok { file_changes :=
        [{ filename := "f".data
           old_filename := "a/f".data
           new_filename := "b/f".data
           changes := [{ line_number := 1
                         change_type := ChangeType.modification
                         old_line := some "3abc".data
                         new_line := some "x".data }] }] } ∧
    "3abc".data ∈ alnumTokens "3abc".data ∧
    isdigitStr "3abc".data = false ∧
    "3abc".data ∉ extractIdentifiers
      { file_changes :=
        [{ filename := "f".data
           old_filename := "a/f".data
           new_filename := "b/f".data
           changes := [{ line_number := 1
                         change_type := ChangeType.modification
                         old_line := some "3abc".data
                         new_line := some "x".data }] }] } := by
  refine ⟨rfl, ?_, by decide, ?_⟩
  · simp [alnumTokens, isWordChar]
  · simp [extractIdentifiers, findIdentifiers, findIdentsGo, isWordChar, isIdentStart,
      isdigitStr, rustKeywords]

/-- C5 (amended): the extracted set contains every alphanumeric token
(maximal run of letters, digits and underscores) of any change's old or
new text whose first character is a letter or an underscore; tokens
beginning with a digit — not only the purely numeric ones — are not
extracted. -/
theorem extractIdentifiers_superset (r : DiffResult) (fc : FileChange) (c : DiffChange)
    (l tok : List Char) (hfc : fc ∈ r.file_changes) (hc : c ∈ fc.changes)
    (hl : c.old_line = some l ∨ c.new_line = some l)
    (htok : tok ∈ alnumTokens l) (hhead : headIsIdentStart tok = true) :
    tok ∈ extractIdentifiers r := by
  have hfind : tok ∈ findIdentifiers l := by
    rw [findIdentifiers_eq_filter]
    exact List.mem_filter.mpr ⟨htok, hhead⟩
  have hlne : l.isEmpty = false := by
    cases l with
    | nil => rw [alnumTokens_nil] at htok; simp at htok
    | cons x xs => rfl
  unfold extractIdentifiers
  apply List.mem_append_left
  apply List.mem_filter.mpr
  constructor
  · apply List.mem_flatMap.mpr
    refine ⟨fc, hfc, ?_⟩
    apply List.mem_flatMap.mpr
    refine ⟨c, hc, ?_⟩
    rcases hl with hl | hl
    · apply List.mem_append_left
      rw [hl]
      simp only [hlne, if_false]
      exact hfind
    · apply List.mem_append_right
      rw [hl]
      simp only [hlne, if_false]
      exact hfind
  · cases tok with
    | nil => simp [headIsIdentStart] at hhead
    | cons t ts =>
      simp only [headIsIdentStart] at hhead
      have hdig : t.isDigit = false := isDigit_false_of_isIdentStart t hhead
      simp [isdigitStr, hdig]

/-- C5 witness: the token `x` of the new text is extracted. -/
theorem extractIdentifiers_superset_witness :
    "x".data ∈ extractIdentifiers
      { file_changes :=
        [{ filename := "f".data
           old_filename := "a/f".data
           new_filename := "b/f".data
           changes := [{ line_number := 1
                         change_type := ChangeType.modification
                         old_line := some "3abc".data
                         new_line := some "x".data }] }] } :=
  extractIdentifiers_superset
    { file_changes :=
      [{ filename := "f".data
         old_filename := "a/f".data
         new_filename := "b/f".data
         changes := [{ line_number := 1
                       change_type := ChangeType.modification
                       old_line := some "3abc".data
                       new_line := some "x".data }] }] }
    { filename := "f".data
      old_filename := "a/f".data
      new_filename := "b/f".data
      changes := [{ line_number := 1
                    change_type := ChangeType.modification
                    old_line := some "3abc".data
                    new_line := some "x".data }] }
    { line_number := 1
      change_type := ChangeType.modification
      old_line := some "3abc".data
      new_line := some "x".data }
    "x".data "x".data (by simp) (by simp) (Or.inr rfl)
    (by simp [alnumTokens, isWordChar]) (by decide)

/-! ## C6: context-collection bound and deduplication -/

theorem appendIfNew_nodup (acc : List (List Char)) (x : List Char)
    (h : acc.Nodup) : (appendIfNew acc x).Nodup := by
  unfold appendIfNew
  split
  · exact h
  · rename_i hx
    refine List.Nodup.append h (List.nodup_singleton x) ?_
    intro a ha hax
    rw [List.mem_singleton] at hax
    subst hax
    exact hx (by simpa using ha)

theorem lineWindowSnippets_nodup (lines identifiers : List (List Char))
    (base : List Char) (acc : List (List Char)) (h : acc.Nodup) :
    (lineWindowSnippets lines identifiers base acc).Nodup := by
  unfold lineWindowSnippets
  generalize lines.enum = xs
  induction xs generalizing acc with
  | nil => exact h
  | cons x xs ih =>
    rw [List.foldl_cons]
    apply ih
    obtain ⟨i, line⟩ := x
    dsimp only
    split
    · exact appendIfNew_nodup _ _ h
    · exact h

theorem structuralSnippetsFor_nodup (found : List (Nat × List (Option (List Char))))
    (identifiers lines : List (List Char)) (base blockType : List Char)
    (acc : List (List Char)) (h : acc.Nodup) :
    (structuralSnippetsFor found identifiers lines base blockType acc).Nodup := by
  unfold structuralSnippetsFor
  induction found generalizing acc with
  | nil => exact h
  | cons x xs ih =>
    rw [List.foldl_cons]
    apply ih
    obtain ⟨line_num, groups⟩ := x
    dsimp only
    split
    · split
      · exact h
      · exact appendIfNew_nodup _ _ h
    · exact h

/-- Each single call of the snippet extractor returns a duplicate-free
list. -/
theorem extractRelevantSnippets_nodup (content : List Char)
    (identifiers : List (List Char)) (file_path : List Char) :
    (extractRelevantSnippets content identifiers file_path).Nodup := by
  unfold extractRelevantSnippets
  apply structuralSnippetsFor_nodup
  apply structuralSnippetsFor_nodup
  apply structuralSnippetsFor_nodup
  apply lineWindowSnippets_nodup
  exact List.nodup_nil

/-- C6 counterexample: two distinct files (`a/foo.rs` and `b/foo.rs`)
with the same base name and the same content produce two identical
(label, text) context items in one collection pass — deduplication is
only per file. -/
theorem collect_duplicate_cex :
    collectProjectContext (Except.ok ["a/foo.rs".data, "b/foo.rs".data])
      (fun _ => Except.ok "alpha".data) ["alpha".data] 10 =
      Except.ok ["From foo.rs:\nalpha".data, "From foo.rs:\nalpha".data] ∧
    ¬ (["From foo.rs:\nalpha".data, "From foo.rs:\nalpha".data] :
        List (List Char)).Nodup := by
  exact ⟨rfl, by decide⟩

/-- C6 (amended): `collect` returns at most `maxItems` items, and the
snippets produced from any SINGLE file are pairwise distinct; across
different files duplicates are possible (claim C6's counterexample). -/
theorem collect_bound_and_dedup (findFiles : Except Unit (List (List Char)))
    (readFile : List Char → Except Unit (List Char))
    (identifiers : List (List Char)) (max_items : Nat) :
    (∀ v, collectProjectContext findFiles readFile identifiers max_items = Except.ok v →
      v.length ≤ max_items) ∧
    (∀ content file_path,
      (extractRelevantSnippets content identifiers file_path).Nodup) := by
  constructor
  · intro v hv
    cases findFiles with
    | error e =>
      rw [show collectProjectContext (Except.error e) readFile identifiers max_items =
        Except.ok [] from rfl] at hv
      cases hv
      simp
    | ok files =>
      rw [show collectProjectContext (Except.ok files) readFile identifiers max_items =
        Except.ok ((collectBody files readFile identifiers).take max_items) from rfl] at hv
      cases hv
      exact List.length_take_le _ _
  · intro content file_path
    exact extractRelevantSnippets_nodup content identifiers file_path

/-- C6 witness: the bound and the per-file dedup at concrete inputs. -/
theorem collect_bound_and_dedup_witness :
    (["From foo.rs:\nalpha".data, "From foo.rs:\nalpha".data] :
      List (List Char)).length ≤ 10 ∧
    (extractRelevantSnippets "alpha".data ["alpha".data] "a/foo.rs".data).Nodup :=
  ⟨(collect_bound_and_dedup (Except.ok ["a/foo.rs".data, "b/foo.rs".data])
      (fun _ => Except.ok "alpha".data) ["alpha".data] 10).1 _ rfl,
   (collect_bound_and_dedup (Except.ok ["a/foo.rs".data, "b/foo.rs".data])
      (fun _ => Except.ok "alpha".data) ["alpha".data] 10).2
      "alpha".data "a/foo.rs".data⟩

end RustCopartner
